import Mathlib

/-!
Verification development for the gtp grammar engine.

This file gives a shallow embedding of the core of the engine
(src/src/parsing.rs and the lowering pass of src/src/grammar.rs) and
settles a list of claims about it.

Modelling conventions:
* Rust strings are embedded as `List Char`; byte offsets become character
  offsets (the engine only ever treats ASCII delimiters specially, where
  the two coincide).
* A compiled regular expression (the `regex::Regex` stored in
  `Atom::Matched`) is embedded as its matching behaviour: a function from
  the remaining input to the optional pair (start, end) of the first
  match, mirroring `Regex::find`.
* Fallible Rust code returning `Result<T, ()>` becomes `PResult`; a Rust
  `panic!` or `.expect(..)` becomes the distinguished value `PResult.panic`.
* The mutually recursive parse functions are not structurally terminating
  (rule references go through names), so every one of them takes an
  explicit fuel argument; exhausting the fuel yields `PResult.fuelOut`,
  the embedding of a non-terminating run.
-/

namespace Gtp

/-- Embedding of a Rust string as a list of characters. -/
abbrev Name := List Char

/-- Abbreviation that converts a Lean string literal to the embedding. -/
def str (s : String) : Name := s.toList

/-- Enum `Symbol` of src/src/parsing.rs: a reference inside a production,
either to a token type (with a flag whether the raw text is kept in the
tree) or to a named rule. -/
inductive Symbol where
  | Lexem (t : Name) (include_raw : Bool)
  | AST (r : Name)
deriving DecidableEq, Repr

/-- Enum `SymbolType` of src/src/parsing.rs: the production expression
algebra. -/
inductive SymbolType where
  | Symbol (s : Symbol)
  | Group (g : List SymbolType)
  | Optional (o : SymbolType)
  | Repeated (m : SymbolType)
  | Switch (a : SymbolType) (b : SymbolType)

/-- Struct `Rule` of src/src/parsing.rs. -/
structure Rule where
  name : Name
  production : SymbolType

/-- Struct `ParseOptions` of src/src/parsing.rs.  The field
`bubble_intermediate` is modelled from the spec: the version of
parsing.rs in the snapshot lacks it, but src/src/grammar.rs constructs
`ParseOptions` with it (get_parsing_grammar, parse_with_parsed_grammar),
so the real struct carries it; the spec calls it the
collapse-singleton-nodes flag. -/
structure ParseOptions where
  ignore_whitespace : Bool
  ignore_newline : Bool
  bubble_intermediate : Bool
deriving DecidableEq, Repr

/-- `ParseOptions::default` of src/src/parsing.rs (all flags off). -/
def ParseOptions.default : ParseOptions :=
  { ignore_whitespace := false, ignore_newline := false,
    bubble_intermediate := false }

/-- Enum `Atom` of src/src/parsing.rs.  `Matched` carries the matching
behaviour of the compiled regex: `m input` is the first match of the
pattern inside `input`, as the pair (start index, end index), or `none`
when the pattern occurs nowhere, mirroring `Regex::find`. -/
inductive Atom where
  | Simple (name : Name)
  | Matched (name : Name) (m : Name → Option (Nat × Nat))

/-- Struct `Grammar` of src/src/parsing.rs. -/
structure Grammar where
  rules : List Rule
  atoms : List Atom
  options : ParseOptions

/-- Enum `AST` of src/src/parsing.rs: the output syntax tree. -/
inductive AST where
  | Node (t : Name) (children : List AST)
  | Leaf (t : Name) (raw : Name)

/-- `AST::get_t` of src/src/parsing.rs. -/
def AST.get_t : AST → Name
  | .Node t _ => t
  | .Leaf t _ => t

/-- Struct `Lexem` of src/src/parsing.rs: one scanned token. -/
structure Lexem where
  t : Name
  raw : Name
deriving DecidableEq, Repr

/-- `SymbolType::nullable` of src/src/parsing.rs. -/
def SymbolType.nullable : SymbolType → Bool
  | .Symbol _ => false
  | .Group _ => false
  | .Switch a b => a.nullable || b.nullable
  | .Optional _ => true
  | .Repeated _ => true

mutual

/-- `SymbolType::first_symbol` of src/src/parsing.rs: the ordered list of
leading symbols a production can start with. -/
def SymbolType.firstSymbol : SymbolType → List Symbol
  | .Symbol i => [i]
  | .Group g => firstSymbolGroup g
  | .Optional o => o.firstSymbol
  | .Repeated m => m.firstSymbol
  | .Switch a b => a.firstSymbol ++ b.firstSymbol

/-- The loop inside the `Group` arm of `first_symbol`: extend with each
member while every preceding member is nullable, stop at the first
non-nullable member. -/
def firstSymbolGroup : List SymbolType → List Symbol
  | [] => []
  | s :: rest =>
      s.firstSymbol ++ (if s.nullable then firstSymbolGroup rest else [])

end

/-- `Atom::match_input` of src/src/parsing.rs: a literal atom matches by
exact prefix comparison; a pattern atom matches only when the first regex
match starts at offset 0 of the slice. -/
def Atom.matchInput : Atom → Name → Option (Name × Nat)
  | .Simple name, input =>
      if name.isPrefixOf input then some (name, name.length) else none
  | .Matched name m, input =>
      match m input with
      | none => none
      | some (s, e) => if s ≠ 0 then none else some (name, e)

/-- `Grammar::match_input` of src/src/parsing.rs: the first atom in
declared order that matches the slice wins. -/
def Grammar.matchInput (g : Grammar) (input : Name) : Option (Lexem × Nat) :=
  (g.atoms.findSome? (fun atom => atom.matchInput input)).map
    (fun p => ({ t := p.1, raw := input.take p.2 }, p.2))

/-- The per-name list of leading symbols consulted by
`Grammar::first_from_rule`: for every rule carrying the name, in
declaration order, the `first_symbol` list of its production,
concatenated. -/
def Grammar.leadSymbols (g : Grammar) (rule : Name) : List Symbol :=
  ((g.rules.filter (fun r => r.name == rule)).map
    (fun r => r.production.firstSymbol)).flatten

/-- `Grammar::first_from_rule` of src/src/parsing.rs, with explicit fuel:
the token types reachable from the FIRST sets of the rules carrying the
name, recursing through rule references (the `Symbol::AST` arm of
`first_from_symbol` is inlined to keep the recursion structural on the
fuel).  `none` embeds a run that does not terminate within the fuel. -/
def firstFromRule (g : Grammar) : Nat → Name → Option (List Name)
  | 0, _ => none
  | fuel+1, rule =>
      (g.leadSymbols rule).foldr
        (fun s acc =>
          match (match s with
                 | .Lexem t _ => some [t]
                 | .AST r => firstFromRule g fuel r), acc with
          | some l, some ls => some (l ++ ls)
          | _, _ => none)
        (some [])

/-- `Grammar::first_from_symbol` of src/src/parsing.rs. -/
def firstFromSymbol (g : Grammar) (fuel : Nat) : Symbol → Option (List Name)
  | .Lexem t _ => some [t]
  | .AST r => firstFromRule g fuel r

/-- The iteration of `first_from_symbol` over a symbol list, flattening
the results (the map-flatten-collect pipeline of `first_from_rule`). -/
def firstFromSymbols (g : Grammar) (fuel : Nat)
    (syms : List Symbol) : Option (List Name) :=
  syms.foldr
    (fun s acc =>
      match firstFromSymbol g fuel s, acc with
      | some l, some ls => some (l ++ ls)
      | _, _ => none)
    (some [])

/-- `Grammar::production_matches_lexem` of src/src/parsing.rs: whether the
token type is in the token-type closure of the FIRST set of the
production. -/
def productionMatchesLexem (g : Grammar) (fuel : Nat) (p : SymbolType)
    (t : Name) : Option Bool :=
  (firstFromSymbols g fuel p.firstSymbol).map (fun l => l.contains t)

/-- Struct `LexemIter` of src/src/parsing.rs, minus the two borrowed
references (the grammar and the input are passed to every function
explicitly, and `options` is always `grammar.options`): the cursor into
the input, the error flag `ok` (`true` embeds `Ok(())`), and the cached
lookahead token. -/
structure LexemIter where
  cursor : Nat
  ok : Bool
  peeked : Option Lexem
deriving DecidableEq, Repr

/-- `Lexem::iter` of src/src/parsing.rs: the initial stream state. -/
def Lexem.iter : LexemIter :=
  { cursor := 0, ok := true, peeked := none }

/-- The loop body of `LexemIter::skip_ignored`, with explicit fuel (the
loop advances the cursor at most past every remaining character, so
`input.length` fuel is always enough). -/
def skipIgnoredAux (options : ParseOptions) (input : Name) :
    Nat → Nat → Nat
  | 0, cursor => cursor
  | fuel+1, cursor =>
      match input.get? cursor with
      | none => cursor
      | some c =>
          if (c == ' ' && options.ignore_whitespace)
              || (c == '\n' && options.ignore_newline) then
            skipIgnoredAux options input fuel (cursor + 1)
          else
            cursor

/-- `LexemIter::skip_ignored` of src/src/parsing.rs: advance the cursor
past every ignorable character. -/
def skipIgnored (options : ParseOptions) (input : Name) (cursor : Nat) :
    Nat :=
  skipIgnoredAux options input input.length cursor

/-- `LexemIter::shift` of src/src/parsing.rs.  Returns the produced token
(if any) together with the successor state. -/
def shift (g : Grammar) (input : Name) (st : LexemIter) :
    Option Lexem × LexemIter :=
  match st.peeked with
  | some l => (some l, { st with peeked := none })
  | none =>
      if st.cursor ≥ input.length then (none, st)
      else
        let cur := skipIgnored g.options input st.cursor
        match g.matchInput (input.drop cur) with
        | some (lexem, i) =>
            (some lexem,
              { st with cursor := skipIgnored g.options input (cur + i) })
        | none => (none, { st with cursor := cur, ok := false })

/-- `LexemIter::peek` of src/src/parsing.rs: one-token lookahead that
caches the scanned token. -/
def peek (g : Grammar) (input : Name) (st : LexemIter) :
    Option Lexem × LexemIter :=
  match st.peeked with
  | some l => (some l, st)
  | none =>
      let p := shift g input st
      (p.1, { p.2 with peeked := p.1 })

/-- Result type of the fallible engine functions.  `ok` and `err` embed
`Ok` and `Err(())` of the Rust `Result<T, ()>`; `panic` embeds a run that
panics (`panic!`, `.expect`, `.unwrap`); `fuelOut` embeds a run that does
not finish within the fuel. -/
inductive PResult (α : Type) where
  | ok : α → PResult α
  | err : PResult α
  | panic : PResult α
  | fuelOut : PResult α

/-- Node construction at the end of `Grammar::parse_rule`.  The collapse
branch is modelled from the spec: when the collapse-singleton-nodes
option (`bubble_intermediate`, missing from the parsing.rs snapshot but
used by src/src/grammar.rs) is enabled, a node with exactly one child is
replaced by that child wherever it is emitted. -/
def mkNode (options : ParseOptions) (rule : Name) (children : List AST) :
    AST :=
  if options.bubble_intermediate then
    match children with
    | [c] => c
    | _ => AST.Node rule children
  else AST.Node rule children

/-- The `rules.iter().find(..)` call of `Grammar::parse_rule`: the first
rule of the (already name-filtered) list whose production FIRST set
contains the lookahead token type.  Outer `none` embeds a run of
`production_matches_lexem` that does not finish within the fuel. -/
def findRuleAux (g : Grammar) (fuel : Nat) (t : Name) :
    List Rule → Option (Option Rule)
  | [] => some none
  | r :: rest =>
      match productionMatchesLexem g fuel r.production t with
      | none => none
      | some true => some (some r)
      | some false => findRuleAux g fuel t rest

mutual

/-- `Grammar::parse_rule` of src/src/parsing.rs, with explicit fuel.  The
`.expect("todo handle empty")` on the peeked token and the
`panic!("no rule matching name")` both embed as `PResult.panic`.  The
final node construction goes through `mkNode` (identical to the source
`AST::Node` construction whenever `bubble_intermediate` is off). -/
def parseRule (g : Grammar) (input : Name) :
    Nat → Name → LexemIter → PResult (AST × LexemIter)
  | 0, _, _ => .fuelOut
  | fuel+1, rule, st =>
      match peek g input st with
      | (none, _) => .panic
      | (some peeked, st1) =>
          let rules := g.rules.filter (fun r => r.name == rule)
          if rules.isEmpty then .panic
          else
            match findRuleAux g fuel peeked.t rules with
            | none => .fuelOut
            | some none => .err
            | some (some r) =>
                match parseSymbolType g input fuel r.production st1 with
                | .ok (children, st2) =>
                    .ok (mkNode g.options rule children, st2)
                | .err => .err
                | .panic => .panic
                | .fuelOut => .fuelOut

/-- `Grammar::parse_symbol_type` of src/src/parsing.rs, with explicit
fuel. -/
def parseSymbolType (g : Grammar) (input : Name) :
    Nat → SymbolType → LexemIter → PResult (List AST × LexemIter)
  | 0, _, _ => .fuelOut
  | fuel+1, s, st =>
      match s with
      | .Symbol sy =>
          match parseSymbol g input fuel sy st with
          | .ok (some a, st1) => .ok ([a], st1)
          | .ok (none, st1) => .ok ([], st1)
          | .err => .err
          | .panic => .panic
          | .fuelOut => .fuelOut
      | .Group gl => parseGroup g input fuel gl st
      | .Optional o =>
          match peek g input st with
          | (none, st1) => .ok ([], st1)
          | (some p, st1) =>
              match productionMatchesLexem g fuel o p.t with
              | none => .fuelOut
              | some true => parseSymbolType g input fuel o st1
              | some false => .ok ([], st1)
      | .Repeated m => parseRepeated g input fuel m st []
      | .Switch a b =>
          match peek g input st with
          | (none, _) => .err
          | (some p, st1) =>
              match productionMatchesLexem g fuel a p.t with
              | none => .fuelOut
              | some true => parseSymbolType g input fuel a st1
              | some false => parseSymbolType g input fuel b st1

/-- The `for` loop of the `Group` arm of `parse_symbol_type`:
walk every member in order, concatenating the emitted children; the first
failure aborts the loop. -/
def parseGroup (g : Grammar) (input : Name) :
    Nat → List SymbolType → LexemIter → PResult (List AST × LexemIter)
  | 0, _, _ => .fuelOut
  | _+1, [], st => .ok ([], st)
  | fuel+1, s :: rest, st =>
      match parseSymbolType g input fuel s st with
      | .ok (c1, st1) =>
          match parseGroup g input fuel rest st1 with
          | .ok (c2, st2) => .ok (c1 ++ c2, st2)
          | .err => .err
          | .panic => .panic
          | .fuelOut => .fuelOut
      | .err => .err
      | .panic => .panic
      | .fuelOut => .fuelOut

/-- The `while` loop of the `Repeated` arm of `parse_symbol_type`: keep
walking the inner production while a lookahead token exists and is in its
FIRST set; `acc` is the list of children emitted so far. -/
def parseRepeated (g : Grammar) (input : Name) :
    Nat → SymbolType → LexemIter → List AST → PResult (List AST × LexemIter)
  | 0, _, _, _ => .fuelOut
  | fuel+1, m, st, acc =>
      match peek g input st with
      | (none, st1) => .ok (acc, st1)
      | (some p, st1) =>
          match productionMatchesLexem g fuel m p.t with
          | none => .fuelOut
          | some false => .ok (acc, st1)
          | some true =>
              match parseSymbolType g input fuel m st1 with
              | .ok (more, st2) => parseRepeated g input fuel m st2 (acc ++ more)
              | .err => .err
              | .panic => .panic
              | .fuelOut => .fuelOut

/-- `Grammar::parse_symbol` of src/src/parsing.rs, with explicit fuel.
For a token reference the peeked token must have the referenced type;
it is then consumed, and emitted as a leaf exactly when `include_raw` is
set.  For a rule reference the result node of `parse_rule` is emitted. -/
def parseSymbol (g : Grammar) (input : Name) :
    Nat → Symbol → LexemIter → PResult (Option AST × LexemIter)
  | 0, _, _ => .fuelOut
  | fuel+1, sy, st =>
      match sy with
      | .Lexem t ir =>
          match peek g input st with
          | (some p, st1) =>
              if p.t == t then
                match shift g input st1 with
                | (some a, st2) =>
                    if ir then .ok (some (AST.Leaf a.t a.raw), st2)
                    else .ok (none, st2)
                | (none, _) => .panic
              else .err
          | (none, _) => .err
      | .AST rule =>
          match parseRule g input fuel rule st with
          | .ok (a, st1) => .ok (some a, st1)
          | .err => .err
          | .panic => .panic
          | .fuelOut => .fuelOut

end

/-- `Grammar::parse` of src/src/parsing.rs, with explicit fuel: parse the
rule name START from a fresh stream, then require `lexems.next()` to
produce no further token. -/
def Grammar.parse (g : Grammar) (fuel : Nat) (input : Name) : PResult AST :=
  match parseRule g input fuel (str "START") Lexem.iter with
  | .ok (ast, st) =>
      match shift g input st with
      | (some _, _) => .err
      | (none, _) => .ok ast
  | .err => .err
  | .panic => .panic
  | .fuelOut => .fuelOut

mutual

/-- `parse_production` of src/src/grammar.rs, with explicit fuel: the
lowering of a production sub-tree of the bootstrap-grammar parse into a
`SymbolType`.  `none` embeds a panicking run (`unwrap` on a missing
child, the length assertion, a `todo!` arm) as well as fuel exhaustion
(the Rust function is structurally recursive, so enough fuel always
exists). -/
def parseProduction : Nat → AST → Option SymbolType
  | 0, _ => none
  | _+1, .Leaf t raw =>
      if t == str "ALPHA" then
        if raw.map Char.toUpper == raw then
          some (.Symbol (.AST raw))
        else
          some (.Symbol (.Lexem raw true))
      else none
  | fuel+1, .Node t children =>
      if t == str "PROD" then
        match children with
        | [] => none
        | c0 :: rest =>
            match parseProduction fuel c0 with
            | none => none
            | some p0 => prodLoop fuel [p0] rest
      else if t == str "PROD_TERM" then
        match children with
        | [] => none
        | c0 :: _ => parseProduction fuel c0
      else if t == str "PROD_GROUP" then
        match children with
        | [] => none
        | c0 :: rest =>
            match parseProduction fuel c0 with
            | none => none
            | some p =>
                match rest with
                | [] => some p
                | a :: _ =>
                    if a.get_t == str "*" then some (.Repeated p)
                    else if a.get_t == str "?" then some (.Optional p)
                    else some p
      else none

/-- The `while let` loop of the `PROD` arm of `parse_production`: `acc`
is the `children` vector accumulated so far. -/
def prodLoop : Nat → List SymbolType → List AST → Option SymbolType
  | 0, _, _ => none
  | _+1, acc, [] => some (.Group acc)
  | fuel+1, acc, p :: rest =>
      if p.get_t == str "|" then
        match acc with
        | [lhs] =>
            match rest with
            | [] => none
            | r :: rest2 =>
                match parseProduction fuel r with
                | none => none
                | some rhs => prodLoop fuel [.Switch lhs rhs] rest2
        | _ => none
      else
        match parseProduction fuel p with
        | none => none
        | some x => prodLoop fuel (acc ++ [x]) rest

end

/-- The rule name referenced by a symbol, when it is a rule reference. -/
def astName : Symbol → Option Name
  | .Lexem _ _ => none
  | .AST r => some r

/-- The rule names referenced in FIRST position from a rule name: the
recursion targets of `first_from_rule`. -/
def Grammar.ruleRefs (g : Grammar) (a : Name) : List Name :=
  (g.leadSymbols a).filterMap astName

/-- The left-corner edge relation of a grammar: `lcEdge g a b` holds when
some rule named `a` references rule `b` in FIRST position, so that
`first_from_rule a` recurses into `first_from_rule b`. -/
def lcEdge (g : Grammar) (a b : Name) : Prop := b ∈ g.ruleRefs a

/-- A grammar whose left-corner reference graph has no cycle: no rule
name can reach itself through FIRST-position rule references. -/
def NoLeftCycle (g : Grammar) : Prop :=
  ∀ a, ¬ Relation.TransGen (lcEdge g) a a

/-- Matching behaviour of the character class of the regex
`\w` (word character): ASCII letters, digits and underscore.  The
concrete inputs below are ASCII, where this is exact. -/
def isWordChar (c : Char) : Bool := c.isAlphanum || c == '_'

/-- Matching behaviour of a regex of the shape `C+` for a character class
`C` (such as `\w+`): the first maximal run of class characters, as the
(start, end) pair of the leftmost-longest match, or `none` when no class
character occurs. -/
def findRun (p : Char → Bool) (input : Name) : Option (Nat × Nat) :=
  match input.findIdx? p with
  | none => none
  | some s => some (s, s + ((input.drop s).takeWhile p).length)

/-- Matching behaviour of a single-character regex such as `\.`: the
first occurrence of the character. -/
def findChar (ch : Char) (input : Name) : Option (Nat × Nat) :=
  (input.findIdx? (fun c => c == ch)).map (fun i => (i, i + 1))

/-- Grammar with the two literal atoms of the atom-priority example:
`>=` declared before `>`. -/
def gGt : Grammar :=
  { rules := [],
    atoms := [.Simple (str ">="), .Simple (str ">")],
    options := ParseOptions.default }

/-- Grammar whose START matches the single token `a`, with whitespace
skipping on (the trailing-input example grammar). -/
def gA : Grammar :=
  { rules := [{ name := str "START",
                production := .Symbol (.Lexem (str "a") false) }],
    atoms := [.Simple (str "a")],
    options := { ignore_whitespace := true, ignore_newline := false,
                 bubble_intermediate := false } }

/-- Grammar whose START is the group `a a a` (used to exhibit two
failing parses at different offsets). -/
def gAAA : Grammar :=
  { rules := [{ name := str "START",
                production := .Group [
                  .Symbol (.Lexem (str "a") false),
                  .Symbol (.Lexem (str "a") false),
                  .Symbol (.Lexem (str "a") false)] }],
    atoms := [.Simple (str "a")],
    options := ParseOptions.default }

/-- The left-recursive grammar `A -> A x`: its single production is not
nullable, yet `first_from_rule A` recurses into itself without consuming
anything. -/
def gLR : Grammar :=
  { rules := [{ name := str "A",
                production := .Group [
                  .Symbol (.AST (str "A")),
                  .Symbol (.Lexem (str "x") false)] }],
    atoms := [],
    options := ParseOptions.default }

/-- The lowered FILE grammar of the singleton-collapse example
(`START -> ( FILE )*`, `FILE -> (alpha (dot alpha)?)`, atoms
`alpha = \w+` and `dot = \.`), with whitespace/newline skipping and
singleton collapsing enabled, exactly as in the
`parse_with_parsed_grammar` test of src/src/grammar.rs. -/
def gFiles : Grammar :=
  { rules := [
      { name := str "START",
        production := .Repeated (.Group [.Symbol (.AST (str "FILE"))]) },
      { name := str "FILE",
        production := .Group [
          .Symbol (.Lexem (str "alpha") true),
          .Optional (.Group [
            .Symbol (.Lexem (str "dot") true),
            .Symbol (.Lexem (str "alpha") true)])] }],
    atoms := [.Matched (str "alpha") (findRun isWordChar),
              .Matched (str "dot") (findChar '.')],
    options := { ignore_whitespace := true, ignore_newline := true,
                 bubble_intermediate := true } }

/-! Helper lemmas shared by several claims. -/

/-- Lookahead caching: when `peek` produces a token, the returned state
has exactly that token cached. -/
theorem peek_some_peeked {g : Grammar} {input : Name} {st st1 : LexemIter}
    {p : Lexem} (h : peek g input st = (some p, st1)) :
    st1.peeked = some p := by
  unfold peek at h
  cases hp : st.peeked with
  | some l => rw [hp] at h; cases h; exact hp
  | none =>
      rw [hp] at h
      rcases hq : shift g input st with ⟨o, st2⟩
      simp only [hq] at h
      cases h
      rfl

/-- Unfolding of `first_from_rule` at positive fuel through the helper
`firstFromSymbols`. -/
theorem firstFromRule_succ (g : Grammar) (fuel : Nat) (rule : Name) :
    firstFromRule g (fuel + 1) rule
      = firstFromSymbols g fuel (g.leadSymbols rule) := rfl

/-- `firstFromSymbols` diverges exactly when the recursion on one of the
symbols diverges. -/
theorem firstFromSymbols_eq_none_iff (g : Grammar) (fuel : Nat)
    (syms : List Symbol) :
    firstFromSymbols g fuel syms = none
      ↔ ∃ s ∈ syms, firstFromSymbol g fuel s = none := by
  induction syms with
  | nil => simp [firstFromSymbols]
  | cons s rest ih =>
      unfold firstFromSymbols at ih ⊢
      simp only [List.foldr_cons]
      cases h1 : firstFromSymbol g fuel s <;>
        cases h2 : rest.foldr _ _ <;>
          simp_all

/-! Claim C1. -/

/-- Claim C1: the claim says that when the token stream yields no
lookahead token (exhausted input, or the error state after unlexable
input), `parse_rule` returns a parse failure rather than crashing, and
that `parse` of the empty input is a failure.  The code instead panics:
the peeked token is unwrapped with `.expect("todo handle empty")`.  Both
the exhausted-stream case (empty input) and the error-state case
(unlexable input) evaluate to the embedded panic. -/
theorem c1_empty_lookahead_panics :
    gA.parse 10 (str "") = .panic ∧ gA.parse 10 (str "!") = .panic :=
  ⟨rfl, rfl⟩

/-! Claim C2. -/

/-- Claim C2: with the collapse-singleton-nodes option enabled, a node
with exactly one child is replaced by that child wherever it is emitted
(first conjunct, about the emission point `mkNode`), and for the rule
`FILE -> (alpha (dot alpha)?)` parsing `fileA` yields the bare leaf
while parsing `fileA.md` yields the FILE node with three children. -/
theorem c2_singleton_collapse :
    (∀ (opts : ParseOptions) (rule : Name) (child : AST),
        opts.bubble_intermediate = true → mkNode opts rule [child] = child)
  ∧ gFiles.parse 20 (str "fileA")
      = .ok (AST.Leaf (str "alpha") (str "fileA"))
  ∧ gFiles.parse 20 (str "fileA.md")
      = .ok (AST.Node (str "FILE")
          [AST.Leaf (str "alpha") (str "fileA"),
           AST.Leaf (str "dot") (str "."),
           AST.Leaf (str "alpha") (str "md")]) :=
  ⟨fun opts rule child h => by simp [mkNode, h], rfl, rfl⟩

/-- Witness for C2 at a concrete input. -/
theorem c2_singleton_collapse_witness :
    mkNode gFiles.options (str "FILE") [AST.Leaf (str "alpha") (str "x")]
      = AST.Leaf (str "alpha") (str "x") :=
  c2_singleton_collapse.1 gFiles.options (str "FILE")
    (AST.Leaf (str "alpha") (str "x")) rfl

/-! Claim C4. -/

/-- Claim C4: lexical matching selects the first atom in declared order
that matches at the current position; a literal atom matches exactly
when it is a prefix of the slice; a pattern atom whose first regex match
starts after offset 0 does not match, while a match at offset 0 yields
the atom name and the match end; hence the atoms `>=`, `>` lex the input
`>=` as the single token `>=`. -/
theorem c4_atom_matching :
    (∀ (name input : Name),
        ((Atom.Simple name).matchInput input).isSome = name.isPrefixOf input)
  ∧ (∀ (name : Name) (m : Name → Option (Nat × Nat)) (input : Name)
        (s e : Nat), m input = some (s, e) → 0 < s →
        (Atom.Matched name m).matchInput input = none)
  ∧ (∀ (name : Name) (m : Name → Option (Nat × Nat)) (input : Name)
        (e : Nat), m input = some (0, e) →
        (Atom.Matched name m).matchInput input = some (name, e))
  ∧ (∀ (rules : List Rule) (opts : ParseOptions) (pre post : List Atom)
        (a : Atom) (input : Name) (r : Name × Nat),
        (∀ b ∈ pre, b.matchInput input = none) →
        a.matchInput input = some r →
        Grammar.matchInput ⟨rules, pre ++ a :: post, opts⟩ input
          = some ({ t := r.1, raw := input.take r.2 }, r.2))
  ∧ shift gGt (str ">=") Lexem.iter
      = (some { t := str ">=", raw := str ">=" },
         { cursor := 2, ok := true, peeked := none })
  ∧ (shift gGt (str ">=")
      { cursor := 2, ok := true, peeked := none }).1 = none := by
  refine ⟨?_, ?_, ?_, ?_, rfl, rfl⟩
  · intro name input
    cases h : name.isPrefixOf input <;> simp [Atom.matchInput, h]
  · intro name m input s e hm hs
    simp [Atom.matchInput, hm, Nat.pos_iff_ne_zero.mp hs]
  · intro name m input e hm
    simp [Atom.matchInput, hm]
  · intro rules opts pre post a input r hpre ha
    induction pre with
    | nil => simp [Grammar.matchInput, List.findSome?_cons, ha]
    | cons b rest ih =>
        have hb : b.matchInput input = none := hpre b (by simp)
        have := ih (fun x hx => hpre x (by simp [hx]))
        simpa [Grammar.matchInput, List.findSome?_cons, hb] using this

/-- Witness for C4 at concrete inputs, one per conditional conjunct. -/
theorem c4_atom_matching_witness :
    (((Atom.Simple (str ">")).matchInput (str ">=")).isSome
        = (str ">").isPrefixOf (str ">="))
  ∧ ((Atom.Matched (str "N") (fun _ => some (1, 2))).matchInput (str "x")
        = none)
  ∧ ((Atom.Matched (str "N") (fun _ => some (0, 1))).matchInput (str "x")
        = some (str "N", 1))
  ∧ (Grammar.matchInput
        ⟨[], [Atom.Simple (str "a"), Atom.Simple (str "b")],
         ParseOptions.default⟩ (str "b")
        = some ({ t := str "b", raw := str "b" }, 1)) :=
  ⟨c4_atom_matching.1 (str ">") (str ">="),
   c4_atom_matching.2.1 (str "N") (fun _ => some (1, 2)) (str "x") 1 2 rfl
     (by decide),
   c4_atom_matching.2.2.1 (str "N") (fun _ => some (0, 1)) (str "x") 1 rfl,
   c4_atom_matching.2.2.2.1 [] ParseOptions.default [Atom.Simple (str "a")]
     [] (Atom.Simple (str "b")) (str "b") (str "b", 1) (by decide) rfl⟩

/-! Claim C5. -/

/-- Claim C5: the defining equations of `first_symbol` (a bare symbol is
its own FIRST set; a group extends with each following member only while
every preceding member is nullable; Optional and Repeated take the inner
FIRST set; an alternation concatenates the left then the right set) and
of nullability (only Optional, Repeated and an alternation with a
nullable branch are nullable; Group and bare Symbol never are). -/
theorem c5_first_symbol_and_nullable :
    (∀ s, (SymbolType.Symbol s).firstSymbol = [s])
  ∧ (∀ o, (SymbolType.Optional o).firstSymbol = o.firstSymbol)
  ∧ (∀ m, (SymbolType.Repeated m).firstSymbol = m.firstSymbol)
  ∧ (∀ a b, (SymbolType.Switch a b).firstSymbol
      = a.firstSymbol ++ b.firstSymbol)
  ∧ ((SymbolType.Group []).firstSymbol = [])
  ∧ (∀ s rest, (SymbolType.Group (s :: rest)).firstSymbol
      = s.firstSymbol
        ++ (if s.nullable then (SymbolType.Group rest).firstSymbol else []))
  ∧ (∀ s, (SymbolType.Symbol s).nullable = false)
  ∧ (∀ l, (SymbolType.Group l).nullable = false)
  ∧ (∀ o, (SymbolType.Optional o).nullable = true)
  ∧ (∀ m, (SymbolType.Repeated m).nullable = true)
  ∧ (∀ a b, (SymbolType.Switch a b).nullable
      = (a.nullable || b.nullable)) := by
  refine ⟨fun s => rfl, fun o => rfl, fun m => rfl, fun a b => rfl, rfl,
    fun s rest => ?_, fun s => rfl, fun l => rfl, fun o => rfl,
    fun m => rfl, fun a b => rfl⟩
  simp only [SymbolType.firstSymbol, firstSymbolGroup]

/-! Claim C6. -/

/-- Claim C6: the top-level parse runs `parse_rule` on the rule name
START and then requires the stream to be exhausted: when a token
remains, the parse is an error, never a success; when none remains, the
parse returns the START tree. -/
theorem c6_trailing_input_rejected (g : Grammar) (input : Name)
    (fuel : Nat) (ast : AST) (st : LexemIter)
    (h : parseRule g input fuel (str "START") Lexem.iter = .ok (ast, st)) :
    ((shift g input st).1.isSome = true → g.parse fuel input = .err)
  ∧ ((shift g input st).1 = none → g.parse fuel input = .ok ast) := by
  constructor <;> intro h2 <;>
    rcases hs : shift g input st with ⟨o, st2⟩ <;>
      rw [hs] at h2 <;> cases o <;>
        simp_all [Grammar.parse, h, hs]

/-- Witness for C6: the single-token grammar rejects `a a` although its
first token alone parses. -/
theorem c6_trailing_input_rejected_witness :
    gA.parse 10 (str "a a") = .err :=
  (c6_trailing_input_rejected gA (str "a a") 10 (AST.Node (str "START") [])
    { cursor := 2, ok := true, peeked := none } rfl).1 rfl

/-! Claim C7. -/

/-- Claim C7: walking an Optional production (and an iteration of a
Repeated production) with the lookahead absent, or present but outside
the inner FIRST set, succeeds emitting no children; once the lookahead
is in the inner FIRST set the inner production is entered and its
outcome — in particular a failure — propagates unchanged. -/
theorem c7_optional_repeated_skip (g : Grammar) (input : Name)
    (fuel : Nat) (o m : SymbolType) (st st1 : LexemIter) (p : Lexem) :
    (peek g input st = (none, st1) →
        parseSymbolType g input (fuel+1) (.Optional o) st = .ok ([], st1))
  ∧ (peek g input st = (some p, st1) →
      productionMatchesLexem g fuel o p.t = some false →
        parseSymbolType g input (fuel+1) (.Optional o) st = .ok ([], st1))
  ∧ (peek g input st = (some p, st1) →
      productionMatchesLexem g fuel o p.t = some true →
        parseSymbolType g input (fuel+1) (.Optional o) st
          = parseSymbolType g input fuel o st1)
  ∧ (peek g input st = (none, st1) →
        parseSymbolType g input (fuel+2) (.Repeated m) st = .ok ([], st1))
  ∧ (peek g input st = (some p, st1) →
      productionMatchesLexem g fuel m p.t = some false →
        parseSymbolType g input (fuel+2) (.Repeated m) st = .ok ([], st1))
  ∧ (peek g input st = (some p, st1) →
      productionMatchesLexem g fuel m p.t = some true →
      parseSymbolType g input fuel m st1 = .err →
        parseSymbolType g input (fuel+2) (.Repeated m) st = .err) := by
  refine ⟨?_, ?_, ?_, ?_, ?_, ?_⟩
  · intro hpk
    simp [parseSymbolType, hpk]
  · intro hpk hm
    simp [parseSymbolType, hpk, hm]
  · intro hpk hm
    simp [parseSymbolType, hpk, hm]
  · intro hpk
    simp [parseSymbolType, parseRepeated, hpk]
  · intro hpk hm
    simp [parseSymbolType, parseRepeated, hpk, hm]
  · intro hpk hm herr
    simp [parseSymbolType, parseRepeated, hpk, hm, herr]

/-- Witness for C7: one concrete application per conjunct.  `gA` has the
single rule `START -> a`; the inner productions used are the token
reference `a` (in the FIRST set of the lookahead), the token reference
`b` (not in it), and the group `a b` (entered, then failing). -/
theorem c7_optional_repeated_skip_witness :
    (parseSymbolType gA (str "") 6
        (.Optional (.Symbol (.Lexem (str "a") false))) Lexem.iter
      = .ok ([], Lexem.iter))
  ∧ (parseSymbolType gA (str "a") 6
        (.Optional (.Symbol (.Lexem (str "b") false))) Lexem.iter
      = .ok ([], { cursor := 1, ok := true,
                   peeked := some { t := str "a", raw := str "a" } }))
  ∧ (parseSymbolType gA (str "a") 6
        (.Optional (.Symbol (.Lexem (str "a") false))) Lexem.iter
      = parseSymbolType gA (str "a") 5
          (.Symbol (.Lexem (str "a") false))
          { cursor := 1, ok := true,
            peeked := some { t := str "a", raw := str "a" } })
  ∧ (parseSymbolType gA (str "") 7
        (.Repeated (.Symbol (.Lexem (str "a") false))) Lexem.iter
      = .ok ([], Lexem.iter))
  ∧ (parseSymbolType gA (str "a") 7
        (.Repeated (.Symbol (.Lexem (str "b") false))) Lexem.iter
      = .ok ([], { cursor := 1, ok := true,
                   peeked := some { t := str "a", raw := str "a" } }))
  ∧ (parseSymbolType gA (str "a") 7
        (.Repeated (.Group [.Symbol (.Lexem (str "a") false),
                            .Symbol (.Lexem (str "b") false)])) Lexem.iter
      = .err) :=
  ⟨(c7_optional_repeated_skip gA (str "") 5
      (.Symbol (.Lexem (str "a") false)) (.Symbol (.Lexem (str "a") false))
      Lexem.iter Lexem.iter { t := str "a", raw := str "a" }).1 rfl,
   (c7_optional_repeated_skip gA (str "a") 5
      (.Symbol (.Lexem (str "b") false)) (.Symbol (.Lexem (str "b") false))
      Lexem.iter
      { cursor := 1, ok := true,
        peeked := some { t := str "a", raw := str "a" } }
      { t := str "a", raw := str "a" }).2.1 rfl rfl,
   (c7_optional_repeated_skip gA (str "a") 5
      (.Symbol (.Lexem (str "a") false)) (.Symbol (.Lexem (str "a") false))
      Lexem.iter
      { cursor := 1, ok := true,
        peeked := some { t := str "a", raw := str "a" } }
      { t := str "a", raw := str "a" }).2.2.1 rfl rfl,
   (c7_optional_repeated_skip gA (str "") 5
      (.Symbol (.Lexem (str "a") false)) (.Symbol (.Lexem (str "a") false))
      Lexem.iter Lexem.iter { t := str "a", raw := str "a" }).2.2.2.1 rfl,
   (c7_optional_repeated_skip gA (str "a") 5
      (.Symbol (.Lexem (str "b") false)) (.Symbol (.Lexem (str "b") false))
      Lexem.iter
      { cursor := 1, ok := true,
        peeked := some { t := str "a", raw := str "a" } }
      { t := str "a", raw := str "a" }).2.2.2.2.1 rfl rfl,
   (c7_optional_repeated_skip gA (str "a") 5
      (.Symbol (.Lexem (str "a") false))
      (.Group [.Symbol (.Lexem (str "a") false),
               .Symbol (.Lexem (str "b") false)]) Lexem.iter
      { cursor := 1, ok := true,
        peeked := some { t := str "a", raw := str "a" } }
      { t := str "a", raw := str "a" }).2.2.2.2.2 rfl rfl rfl⟩

/-! Claim C8. -/

/-- An unrecognized-input event in `shift`: no token is produced, and the
failing offset and the error flag are recorded only in the returned
internal state. -/
theorem shift_unrecognized (g : Grammar) (input : Name) (st : LexemIter)
    (h1 : st.peeked = none) (h2 : st.cursor < input.length)
    (h3 : g.matchInput (input.drop (skipIgnored g.options input st.cursor))
            = none) :
    shift g input st
      = (none,
         { st with
             cursor := skipIgnored g.options input st.cursor,
             ok := false }) := by
  have h2n : ¬ st.cursor ≥ input.length := Nat.not_le.mpr h2
  simp [shift, h1, h2n, h3]

/-- Claim C8 (amended): an UnrecognizedInput condition yields no token;
the offset at which matching failed and the error flag are recorded only
in the internal stream state, and the caller-visible failure value is
the information-free unit error. -/
theorem c8_failure_offset_internal_only (g : Grammar) (input : Name)
    (st : LexemIter) (h1 : st.peeked = none)
    (h2 : st.cursor < input.length)
    (h3 : g.matchInput (input.drop (skipIgnored g.options input st.cursor))
            = none) :
    shift g input st
      = (none,
         { st with
             cursor := skipIgnored g.options input st.cursor,
             ok := false }) :=
  shift_unrecognized g input st h1 h2 h3

/-- Counterexample for C8 as stated: two parses that fail on
unrecognized input at different offsets (offset 1 of `a!`, offset 2 of
`aa!`) return the very same information-free error value, so no offset
is exposed to the external caller. -/
theorem c8_counterexample :
    gAAA.parse 10 (str "a!") = .err
  ∧ gAAA.parse 10 (str "aa!") = .err
  ∧ gAAA.parse 10 (str "a!") = gAAA.parse 10 (str "aa!") :=
  ⟨rfl, rfl, rfl⟩

/-- Witness for C8 at a concrete stream state. -/
theorem c8_failure_offset_internal_only_witness :
    shift gAAA (str "a!") { cursor := 1, ok := true, peeked := none }
      = (none, { cursor := 1, ok := false, peeked := none }) :=
  c8_failure_offset_internal_only gAAA (str "a!")
    { cursor := 1, ok := true, peeked := none } rfl (by decide) rfl

/-! Claim C9. -/

/-- Claim C9 (amended): a bare identifier leaf lowers according to the
result of ASCII uppercasing: an identifier left unchanged by ASCII
uppercasing (in particular every all-uppercase ASCII identifier, but
also any identifier without ASCII lowercase letters) becomes a rule
reference, any other identifier becomes a token-type reference with the
raw text retained; a retained token reference is emitted into the output
tree as a leaf carrying the raw matched text of the consumed token. -/
theorem c9_identifier_lowering (raw : Name) (fuel : Nat) (g : Grammar)
    (input t : Name) (st st1 : LexemIter) (p : Lexem) :
    (raw.map Char.toUpper = raw →
        parseProduction (fuel+1) (AST.Leaf (str "ALPHA") raw)
          = some (.Symbol (.AST raw)))
  ∧ (raw.map Char.toUpper ≠ raw →
        parseProduction (fuel+1) (AST.Leaf (str "ALPHA") raw)
          = some (.Symbol (.Lexem raw true)))
  ∧ (peek g input st = (some p, st1) → p.t = t →
        parseSymbol g input (fuel+1) (.Lexem t true) st
          = .ok (some (AST.Leaf p.t p.raw), { st1 with peeked := none })) := by
  refine ⟨?_, ?_, ?_⟩
  · intro h
    simp [parseProduction, h]
  · intro h
    simp [parseProduction, h]
  · intro hpk ht
    have hp := peek_some_peeked hpk
    simp [parseSymbol, hpk, ht, shift, hp]

/-- Counterexample for C9 as stated: the identifier `é` is not an
uppercase identifier (it has no uppercase letter at all), yet the
lowering converts it to a rule reference, not to a token-type
reference. -/
theorem c9_counterexample :
    (str "é").all Char.isUpper = false
  ∧ parseProduction 1 (AST.Leaf (str "ALPHA") (str "é"))
      = some (.Symbol (.AST (str "é"))) :=
  ⟨by decide, rfl⟩

/-- Witness for C9: both lowering directions at concrete identifiers,
and the leaf emission for a concrete consumed token. -/
theorem c9_identifier_lowering_witness :
    parseProduction 3 (AST.Leaf (str "ALPHA") (str "FOO"))
      = some (.Symbol (.AST (str "FOO")))
  ∧ parseProduction 3 (AST.Leaf (str "ALPHA") (str "foo"))
      = some (.Symbol (.Lexem (str "foo") true))
  ∧ parseSymbol gA (str "a") 5 (.Lexem (str "a") true) Lexem.iter
      = .ok (some (AST.Leaf (str "a") (str "a")),
             { cursor := 1, ok := true, peeked := none }) :=
  ⟨(c9_identifier_lowering (str "FOO") 2 gA (str "a") (str "a")
      Lexem.iter Lexem.iter { t := str "a", raw := str "a" }).1 rfl,
   (c9_identifier_lowering (str "foo") 2 gA (str "a") (str "a")
      Lexem.iter Lexem.iter { t := str "a", raw := str "a" }).2.1
      (by decide),
   (c9_identifier_lowering (str "x") 4 gA (str "a") (str "a")
      Lexem.iter
      { cursor := 1, ok := true,
        peeked := some { t := str "a", raw := str "a" } }
      { t := str "a", raw := str "a" }).2.2 rfl rfl⟩

/-! Claim C10. -/

/-- Claim C10: when, after a successful parse of START, unconsumed input
remains but no atom matches at the (skip-adjusted) offset, the final
`lexems.next()` of `parse` produces no token: the parse is reported as a
success even though input remains, and the error flag recorded in the
stream state is discarded (no caller examines it). -/
theorem c10_unlexable_trailing_accepted (g : Grammar) (input : Name)
    (fuel : Nat) (ast : AST) (st : LexemIter)
    (h1 : parseRule g input fuel (str "START") Lexem.iter = .ok (ast, st))
    (h2 : st.peeked = none) (h3 : st.cursor < input.length)
    (h4 : g.matchInput (input.drop (skipIgnored g.options input st.cursor))
            = none) :
    g.parse fuel input = .ok ast ∧ (shift g input st).2.ok = false := by
  have hs := shift_unrecognized g input st h2 h3 h4
  exact ⟨by simp [Grammar.parse, h1, hs], by simp [hs]⟩

/-- Witness for C10: with `START -> a`, the input `a!` is silently
accepted although `!` remains and no atom matches it. -/
theorem c10_unlexable_trailing_accepted_witness :
    gA.parse 10 (str "a!") = .ok (AST.Node (str "START") [])
  ∧ (shift gA (str "a!")
      { cursor := 1, ok := true, peeked := none }).2.ok = false :=
  c10_unlexable_trailing_accepted gA (str "a!") 10
    (AST.Node (str "START") []) { cursor := 1, ok := true, peeked := none }
    rfl rfl (by decide) rfl

/-! Claim C3. -/

/-- One recursion step out of a diverging `first_from_rule` run: the
divergence goes through a left-corner edge. -/
theorem firstFromRule_none_step {g : Grammar} {fuel : Nat} {rule : Name}
    (h : firstFromRule g (fuel+1) rule = none) :
    ∃ b, lcEdge g rule b ∧ firstFromRule g fuel b = none := by
  rw [firstFromRule_succ, firstFromSymbols_eq_none_iff] at h
  obtain ⟨s, hs, hnone⟩ := h
  cases s with
  | Lexem t ir => simp [firstFromSymbol] at hnone
  | AST r =>
      refine ⟨r, ?_, ?_⟩
      · exact List.mem_filterMap.mpr ⟨Symbol.AST r, hs, rfl⟩
      · simpa [firstFromSymbol] using hnone

/-- A diverging `first_from_rule` run yields a left-corner chain as long
as the fuel. -/
theorem firstFromRule_none_chain (g : Grammar) :
    ∀ (fuel : Nat) (rule : Name), firstFromRule g fuel rule = none →
      ∃ c : Nat → Name, c 0 = rule ∧ ∀ i < fuel, lcEdge g (c i) (c (i+1)) := by
  intro fuel
  induction fuel with
  | zero =>
      intro rule _
      exact ⟨fun _ => rule, rfl, fun i hi => absurd hi (Nat.not_lt_zero i)⟩
  | succ n ih =>
      intro rule h
      obtain ⟨b, hedge, hnone⟩ := firstFromRule_none_step h
      obtain ⟨cb, hcb0, hcbe⟩ := ih b hnone
      refine ⟨fun i => match i with | 0 => rule | j+1 => cb j, rfl, ?_⟩
      intro i hi
      match i with
      | 0 => simpa [hcb0] using hedge
      | j+1 => exact hcbe j (by omega)

/-- The source of a left-corner edge carries at least one rule. -/
theorem lcEdge_source_mem {g : Grammar} {a b : Name} (h : lcEdge g a b) :
    a ∈ g.rules.map Rule.name := by
  obtain ⟨s, hs, -⟩ := List.mem_filterMap.mp h
  unfold Grammar.leadSymbols at hs
  obtain ⟨l, hl, hsl⟩ := List.mem_flatten.mp hs
  obtain ⟨r, hr, rfl⟩ := List.mem_map.mp hl
  have hrf := List.mem_filter.mp hr
  exact List.mem_map.mpr ⟨r, hrf.1, by simpa using hrf.2⟩

/-- A left-corner chain gives transitive reachability between any two of
its positions. -/
theorem chain_transGen {g : Grammar} (c : Nat → Name) (N : Nat)
    (hc : ∀ i < N, lcEdge g (c i) (c (i+1))) :
    ∀ i j, i < j → j ≤ N → Relation.TransGen (lcEdge g) (c i) (c j) := by
  intro i j
  induction j with
  | zero => intro h _; exact absurd h (Nat.not_lt_zero i)
  | succ j ih =>
      intro hij hjN
      rcases Nat.lt_succ_iff_lt_or_eq.mp hij with hlt | heq
      · exact Relation.TransGen.tail (ih hlt (by omega)) (hc j (by omega))
      · subst heq
        exact Relation.TransGen.single (hc i (by omega))

/-- A relation with no edges has no transitive chain. -/
theorem transGen_not_of_no_edges {α : Type} {r : α → α → Prop}
    (h : ∀ x y, ¬ r x y) : ∀ a b, ¬ Relation.TransGen r a b := by
  intro a b htg
  cases htg with
  | single e => exact h _ _ e
  | tail _ e => exact h _ _ e

/-- A grammar whose productions reference no rule in FIRST position has
an acyclic (indeed empty) left-corner graph. -/
theorem noLeftCycle_of_no_refs (g : Grammar)
    (h : ∀ r ∈ g.rules, r.production.firstSymbol.filterMap astName = []) :
    NoLeftCycle g := by
  have hne : ∀ x y, ¬ lcEdge g x y := by
    intro x y hxy
    obtain ⟨s, hs, hast⟩ := List.mem_filterMap.mp hxy
    unfold Grammar.leadSymbols at hs
    obtain ⟨l, hl, hsl⟩ := List.mem_flatten.mp hs
    obtain ⟨r, hr, rfl⟩ := List.mem_map.mp hl
    have hrf := List.mem_filter.mp hr
    have hmem : y ∈ r.production.firstSymbol.filterMap astName :=
      List.mem_filterMap.mpr ⟨s, hsl, hast⟩
    rw [h r hrf.1] at hmem
    exact absurd hmem (List.not_mem_nil y)
  intro a
  exact transGen_not_of_no_edges hne a a

/-- Claim C3 (amended): for every grammar whose left-corner reference
graph is acyclic — no rule name reaches itself through FIRST-position
rule references, whether or not through nullable prefixes — the FIRST
computation `first_from_rule` terminates on every rule name: some fuel
(one more than the number of distinct rule names suffices) makes it
return a result. -/
theorem c3_first_from_rule_terminates (g : Grammar) (h : NoLeftCycle g)
    (rule : Name) : ∃ fuel, (firstFromRule g fuel rule).isSome = true := by
  classical
  refine ⟨(g.rules.map Rule.name).toFinset.card + 1, ?_⟩
  by_contra hnot
  have hnone : firstFromRule g ((g.rules.map Rule.name).toFinset.card + 1)
      rule = none := by
    cases hcase : firstFromRule g
        ((g.rules.map Rule.name).toFinset.card + 1) rule with
    | none => rfl
    | some v => exact absurd (by simp [hcase]) hnot
  obtain ⟨c, hc0, hce⟩ := firstFromRule_none_chain g
    ((g.rules.map Rule.name).toFinset.card + 1) rule hnone
  have hmaps : ∀ i ∈ Finset.range ((g.rules.map Rule.name).toFinset.card + 1),
      c i ∈ (g.rules.map Rule.name).toFinset := by
    intro i hi
    rw [List.mem_toFinset]
    exact lcEdge_source_mem (hce i (Finset.mem_range.mp hi))
  have hcard : (g.rules.map Rule.name).toFinset.card
      < (Finset.range ((g.rules.map Rule.name).toFinset.card + 1)).card := by
    rw [Finset.card_range]
    omega
  obtain ⟨i, hi, j, hj, hne, heq⟩ :=
    Finset.exists_ne_map_eq_of_card_lt_of_maps_to hcard hmaps
  have hilt := Finset.mem_range.mp hi
  have hjlt := Finset.mem_range.mp hj
  rcases hne.lt_or_lt with hij | hij
  · have t := chain_transGen c
      ((g.rules.map Rule.name).toFinset.card + 1) hce i j hij (by omega)
    rw [heq] at t
    exact h _ t
  · have t := chain_transGen c
      ((g.rules.map Rule.name).toFinset.card + 1) hce j i hij (by omega)
    rw [← heq] at t
    exact h _ t

/-- Counterexample for C3 as stated: the left-recursive grammar
`A -> A x` is well-formed in the sense of the claim — it has no nullable
alternative at all, in particular no rule whose every alternative is
nullable cycles into itself — yet `first_from_rule A` runs out of any
amount of fuel: the computation never terminates. -/
theorem c3_counterexample :
    (∀ r ∈ gLR.rules, r.production.nullable = false)
  ∧ (∀ fuel, firstFromRule gLR fuel (str "A") = none) := by
  refine ⟨by decide, ?_⟩
  intro fuel
  induction fuel with
  | zero => rfl
  | succ n ih =>
      rw [firstFromRule_succ]
      have hlead : gLR.leadSymbols (str "A") = [Symbol.AST (str "A")] := rfl
      rw [hlead]
      simp [firstFromSymbols, firstFromSymbol, ih]

/-- Witness for C3 on a concrete acyclic grammar. -/
theorem c3_first_from_rule_terminates_witness :
    ∃ fuel, (firstFromRule gA fuel (str "START")).isSome = true :=
  c3_first_from_rule_terminates gA
    (noLeftCycle_of_no_refs gA (by decide)) (str "START")

end Gtp
